import Mathlib

/-!
# vtv-parse-epgLog: a verification development of `app.js`

The development embeds the decision logic of `app.js` in Lean:

* the two regular expressions of `parseLogLine` and the backtracking
  matcher that `String.prototype.match` runs on them,
* `parseLogLine` itself (dispatch on `PARSE_INFO_EVENTS`, `includes`,
  topology lookup, event construction),
* the latest-file `reduce`, the per-line aggregation loop and the delivery
  steps of `listFoldersAndParseLatestFiles`,
* the token retry loop of the start-up block.

Modelling conventions.

* A JavaScript string is a Lean `String`; its elements are Unicode scalar
  values.  The two patterns split the subject only next to ASCII literals,
  so counting an astral character once (Lean) or twice (UTF-16) gives the
  same captures.  Strings holding lone surrogates are outside the model.
* `undefined` / `null` results are `Option.none`.
* The callbacks of `lines.forEach(async line => ...)` contain one `await`
  on an already settled promise, so their continuations run in line order
  before the continuation of the enclosing `await`; the loop is modelled as
  a left fold over the lines.
* Side effects (calls of `getAuthToken`, payloads given to
  `sendEventsToEndpoint`) are recorded in explicit state.
-/

namespace EpgLog

/-! ## Regular expressions of the shape used in `app.js` -/

/-- Single-character matchers: a literal, `.` and `\d`. -/
inductive CharSet where
  | lit (c : Char)
  | dot
  | digit
  deriving DecidableEq, Repr

/-- Line terminators of ECMAScript, which `.` does not match. -/
def isLineTerminator (c : Char) : Bool :=
  c.toNat == 0x0A || c.toNat == 0x0D || c.toNat == 0x2028 || c.toNat == 0x2029

/-- Test of one character against a single-character matcher. -/
def CharSet.test : CharSet → Char → Bool
  | .lit c, x => x == c
  | .dot, x => !isLineTerminator x
  | .digit, x => x.isDigit

/-- Pattern syntax: atoms, `x*?`, `x+` over single-character matchers,
numbered capturing groups, concatenation and the empty pattern. -/
inductive Regex where
  | atom (cs : CharSet)
  | lazyStar (cs : CharSet)
  | greedyPlus (cs : CharSet)
  | group (i : Nat) (r : Regex)
  | seq (r₁ r₂ : Regex)
  | eps
  deriving Repr

/-- Capture array of a match: index 0 is the whole match. -/
abbrev Caps := List (List Char)

/-- Lazy repetition `x*?`: the continuation is tried first, one more
character is consumed only when it fails. -/
def lazyStarAux {α : Type} (p : Char → Bool) (k : List Char → Option α) :
    List Char → Option α
  | [] => k []
  | c :: t =>
    match k (c :: t) with
    | some r => some r
    | none => if p c then lazyStarAux p k t else none

/-- Greedy repetition `x*`: as many characters as possible are consumed,
the continuation is tried on the way back. -/
def greedyStarAux {α : Type} (p : Char → Bool) (k : List Char → Option α) :
    List Char → Option α
  | [] => k []
  | c :: t =>
    if p c then
      match greedyStarAux p k t with
      | some r => some r
      | none => k (c :: t)
    else k (c :: t)

/-- Backtracking matcher in continuation-passing style: `matchHere r s caps k`
matches `r` at the start of `s` and hands the rest of the subject and the
captures to `k`; `none` from `k` makes the matcher backtrack. -/
def matchHere {α : Type} : Regex → List Char → Caps → (List Char → Caps → Option α) → Option α
  | .atom cs, s, caps, k =>
    match s with
    | [] => none
    | c :: t => if cs.test c then k t caps else none
  | .lazyStar cs, s, caps, k => lazyStarAux cs.test (fun s' => k s' caps) s
  | .greedyPlus cs, s, caps, k =>
    match s with
    | [] => none
    | c :: t => if cs.test c then greedyStarAux cs.test (fun s' => k s' caps) t else none
  | .group i r, s, caps, k =>
    matchHere r s caps (fun s' caps' => k s' (caps'.set i (s.take (s.length - s'.length))))
  | .seq r₁ r₂, s, caps, k =>
    matchHere r₁ s caps (fun s' caps' => matchHere r₂ s' caps' k)
  | .eps, s, caps, k => k s caps

/-- Number of capturing groups of a pattern. -/
def Regex.groupCount : Regex → Nat
  | .group _ r => r.groupCount + 1
  | .seq r₁ r₂ => r₁.groupCount + r₂.groupCount
  | _ => 0

/-- Capture array before a match attempt: one slot for the whole match and
one for each group.  In both patterns every group takes part in every
match, so no slot of a result is left at its initial value. -/
def initCaps (r : Regex) : Caps := List.replicate (r.groupCount + 1) []

/-- Match attempt at the start of `s`; on success slot 0 receives the whole match. -/
def matchAt (r : Regex) (s : List Char) : Option Caps :=
  matchHere (.group 0 r) s (initCaps r) (fun _ caps => some caps)

/-- Run of a non-global pattern as `RegExp.prototype.exec` does it: start
positions are tried from left to right, the first success is returned. -/
def execList (r : Regex) : List Char → Option Caps
  | [] => matchAt r []
  | c :: t =>
    match matchAt r (c :: t) with
    | some m => some m
    | none => execList r t

/-- Pattern of a literal text: its characters in sequence. -/
def Regex.str : List Char → Regex
  | [] => .eps
  | c :: t => .seq (.atom (.lit c)) (Regex.str t)

/-- Pattern `/\[(.*?)\] INFO Completed EPG check for channel (\d+)/`. -/
def infoPattern : Regex :=
  .seq (.atom (.lit '['))
    (.seq (.group 1 (.lazyStar .dot))
      (.seq (Regex.str "] INFO Completed EPG check for channel ".data)
        (.group 2 (.greedyPlus .digit))))

/-- Pattern
`/\[(.*?)\] ERROR No EPG Data for channel: (\d+).+EPG Data URL: (https:\/\/.+)/`. -/
def errorPattern : Regex :=
  .seq (.atom (.lit '['))
    (.seq (.group 1 (.lazyStar .dot))
      (.seq (Regex.str "] ERROR No EPG Data for channel: ".data)
        (.seq (.group 2 (.greedyPlus .digit))
          (.seq (.greedyPlus .dot)
            (.seq (Regex.str "EPG Data URL: ".data)
              (.group 3 (.seq (Regex.str "https://".data) (.greedyPlus .dot))))))))

/-- Result of `line.match(pattern)`: the capture array, or `none` for `null`. -/
def jsMatch (line : String) (r : Regex) : Option (List String) :=
  (execList r line.data).map (fun caps => caps.map String.mk)

/-- Declarative reading of a pattern: `Matches r w caps caps'` says that `r`
matches exactly the text `w` and turns the capture array `caps` into `caps'`. -/
def Matches : Regex → List Char → Caps → Caps → Prop
  | .atom cs, w, caps, caps' => (∃ c, w = [c] ∧ cs.test c = true) ∧ caps' = caps
  | .lazyStar cs, w, caps, caps' => (∀ c ∈ w, cs.test c = true) ∧ caps' = caps
  | .greedyPlus cs, w, caps, caps' => w ≠ [] ∧ (∀ c ∈ w, cs.test c = true) ∧ caps' = caps
  | .group i r, w, caps, caps' => ∃ capsm, Matches r w caps capsm ∧ caps' = capsm.set i w
  | .seq r₁ r₂, w, caps, caps' =>
    ∃ w₁ w₂ capsm, w = w₁ ++ w₂ ∧ Matches r₁ w₁ caps capsm ∧ Matches r₂ w₂ capsm caps'
  | .eps, w, caps, caps' => w = [] ∧ caps' = caps

/-- Substring test on character lists. -/
def includesList : List Char → List Char → Bool
  | [], n => n.isEmpty
  | c :: t, n => n.isPrefixOf (c :: t) || includesList t n

/-- Model of `String.prototype.includes`. -/
def includes (s needle : String) : Bool := includesList s.data needle.data

/-! ## Events and `parseLogLine` -/

/-- Inner object under the key `event` built by `parseLogLine`; `epgUrl`
is present on error events only. -/
structure Event where
  raised : String
  ressourceIdentifier : String
  message : String
  severity : Nat
  agent : String
  epgUrl : Option String
  opco : String
  deriving DecidableEq, Repr

/-- The object `topoChannelData`: property lookup by key; `none` is `undefined`. -/
abbrev TopologyMap := String → Option String

/-- Truthiness of `topoChannelData && topoChannelData[epgId]`: the map is not
`null`, the key is present and the name is not the empty string. -/
def lookupName (topoChannelData : Option TopologyMap) (epgId : String) : Option String :=
  match topoChannelData with
  | none => none
  | some topo =>
    match topo epgId with
    | none => none
    | some name => if name = "" then none else some name

/-- Model of `parseLogLine(line, folderName, topoChannelData)`; the first
argument is the global `PARSE_INFO_EVENTS`.  The result `none` is the
`undefined` of a call that falls through. -/
def parseLogLine (PARSE_INFO_EVENTS : Bool) (line folderName : String)
    (topoChannelData : Option TopologyMap) : Option Event :=
  if PARSE_INFO_EVENTS && includes line "INFO" then
    match jsMatch line infoPattern with
    | some m =>
      let epgId := m.getD 2 ""
      let lookupTag := folderName ++ "_" ++ epgId
      let ressourceIdentifier := lookupTag
      let channelName := epgId
      let (channelName, ressourceIdentifier) :=
        match lookupName topoChannelData epgId with
        | some name => (name, ressourceIdentifier ++ "_" ++ name)
        | none => (channelName, ressourceIdentifier)
      some { raised := m.getD 1 ""
             ressourceIdentifier := ressourceIdentifier
             message := "Completed EPG check for channel " ++ channelName
             severity := 0
             agent := "epg-log-parser"
             epgUrl := none
             opco := folderName }
    | none => none
  else if includes line "ERROR" then
    match jsMatch line errorPattern with
    | some m =>
      let epgId := m.getD 2 ""
      let lookupTag := folderName ++ "_" ++ epgId
      let ressourceIdentifier := lookupTag
      let channelName := epgId
      let (channelName, ressourceIdentifier) :=
        match lookupName topoChannelData epgId with
        | some name => (name, ressourceIdentifier ++ "_" ++ name)
        | none => (channelName, ressourceIdentifier)
      some { raised := m.getD 1 ""
             ressourceIdentifier := ressourceIdentifier
             message := "No EPG Data for channel: " ++ channelName
             severity := 4
             agent := "epg-log-parser"
             epgUrl := some (m.getD 3 "")
             opco := folderName }
    | none => none
  else none

/-- Channel id captured for a line, `match[2]` of the branch that
`parseLogLine` takes under the given `PARSE_INFO_EVENTS`. -/
def capturedChannelId (PARSE_INFO_EVENTS : Bool) (line : String) : Option String :=
  if PARSE_INFO_EVENTS && includes line "INFO" then
    (jsMatch line infoPattern).map (fun m => m.getD 2 "")
  else if includes line "ERROR" then
    (jsMatch line errorPattern).map (fun m => m.getD 2 "")
  else none

/-- The event built in the completion branch, as a function of the capture array. -/
def infoEventOf (m : List String) (folderName : String) (topo : Option TopologyMap) : Event :=
  { raised := m.getD 1 ""
    ressourceIdentifier :=
      match lookupName topo (m.getD 2 "") with
      | some name => folderName ++ "_" ++ m.getD 2 "" ++ "_" ++ name
      | none => folderName ++ "_" ++ m.getD 2 ""
    message :=
      match lookupName topo (m.getD 2 "") with
      | some name => "Completed EPG check for channel " ++ name
      | none => "Completed EPG check for channel " ++ m.getD 2 ""
    severity := 0
    agent := "epg-log-parser"
    epgUrl := none
    opco := folderName }

/-- The event built in the error branch, as a function of the capture array. -/
def errorEventOf (m : List String) (folderName : String) (topo : Option TopologyMap) : Event :=
  { raised := m.getD 1 ""
    ressourceIdentifier :=
      match lookupName topo (m.getD 2 "") with
      | some name => folderName ++ "_" ++ m.getD 2 "" ++ "_" ++ name
      | none => folderName ++ "_" ++ m.getD 2 ""
    message :=
      match lookupName topo (m.getD 2 "") with
      | some name => "No EPG Data for channel: " ++ name
      | none => "No EPG Data for channel: " ++ m.getD 2 ""
    severity := 4
    agent := "epg-log-parser"
    epgUrl := some (m.getD 3 "")
    opco := folderName }

/-! ## `listFoldersAndParseLatestFiles` -/

/-- Entry of `folderResponse.Contents`; `LastModified` is the time value of
the date in milliseconds. -/
structure S3Object where
  Key : String
  LastModified : Int
  deriving DecidableEq, Repr

/-- The callback of `files.reduce`. -/
def laterOf (latest current : S3Object) : S3Object :=
  if latest.LastModified > current.LastModified then latest else current

/-- Model of `files.reduce((latest, current) => ...)` without initial value:
the first file starts the accumulation; `none` on the empty list, which the
caller excludes before the call. -/
def latestFile : List S3Object → Option S3Object
  | [] => none
  | f :: fs => some (fs.foldl laterOf f)

/-- The two arrays filled by the per-line loop. -/
structure Buckets where
  criticalEventsToSend : List Event
  clearEventsToSend : List Event
  deriving DecidableEq, Repr

/-- The constant `DEV_MODE` of `app.js`. -/
def DEV_MODE : Bool := false

/-- Body of the `forEach` callback for one line, with `DEV_MODE` as a
parameter so that both branches are present. -/
def processLine (devMode PARSE_INFO_EVENTS : Bool) (folderName : String)
    (topoChannelData : Option TopologyMap) (st : Buckets) (line : String) : Buckets :=
  if devMode then
    if folderName = "DE" then
      match parseLogLine PARSE_INFO_EVENTS line folderName topoChannelData with
      | some ev =>
        if ev.severity > 0 then
          { st with criticalEventsToSend := st.criticalEventsToSend ++ [ev] }
        else if ev.severity = 0 then
          { st with clearEventsToSend := st.clearEventsToSend ++ [ev] }
        else st
      | none => st
    else st
  else
    match parseLogLine PARSE_INFO_EVENTS line folderName topoChannelData with
    | some ev =>
      if ev.severity ≠ 0 then
        if ev.severity > 0 then
          { st with criticalEventsToSend := st.criticalEventsToSend ++ [ev] }
        else
          { st with clearEventsToSend := st.clearEventsToSend ++ [ev] }
      else st
    | none => st

/-- The per-line loop over the lines of one file, from two empty arrays. -/
def aggregate (devMode PARSE_INFO_EVENTS : Bool) (folderName : String)
    (topoChannelData : Option TopologyMap) (lines : List String) : Buckets :=
  lines.foldl (processLine devMode PARSE_INFO_EVENTS folderName topoChannelData)
    { criticalEventsToSend := [], clearEventsToSend := [] }

/-- The object `eventToSend`: `{}` has no `events` property. -/
structure Envelope where
  events : Option (List Event)
  deriving DecidableEq, Repr

/-- State of the delivery steps: the object `eventToSend` and the payloads
given to `sendEventsToEndpoint` so far, oldest first. -/
structure SendState where
  eventToSend : Envelope
  sent : List Envelope
  deriving DecidableEq, Repr

/-- One call `sendEventsToEndpoint(eventToSend)`. -/
def sendEventsToEndpoint (st : SendState) : SendState :=
  { st with sent := st.sent ++ [st.eventToSend] }

/-- The delivery steps after the per-line loop; the result lists the
payloads in the order of the calls. -/
def deliver (PARSE_INFO_EVENTS : Bool) (b : Buckets) : List Envelope :=
  let st : SendState := { eventToSend := { events := none }, sent := [] }
  let numOfCritEvents := b.criticalEventsToSend.length
  let numOfClearEvents := b.clearEventsToSend.length
  let st :=
    if PARSE_INFO_EVENTS && decide (numOfClearEvents > 0) then
      sendEventsToEndpoint { st with eventToSend := { events := some b.clearEventsToSend } }
    else st
  let st :=
    if numOfCritEvents > 0 then
      sendEventsToEndpoint { st with eventToSend := { events := some b.criticalEventsToSend } }
    else st
  st.sent

/-- Model of `fileContent.split('\n')`. -/
def splitLines : List Char → List (List Char)
  | [] => [[]]
  | c :: t =>
    if c = '\n' then [] :: splitLines t
    else
      match splitLines t with
      | [] => [[c]]
      | h :: r => (c :: h) :: r

/-- One iteration of the loop over the folders: the payloads delivered for
the folder with objects `files`, where `getObject` gives the text of an
object and `fetchTopologyData` the topology of a tenant. -/
def processFolder (PARSE_INFO_EVENTS : Bool) (folderPrefix : String) (files : List S3Object)
    (getObject : String → String) (fetchTopologyData : String → Option TopologyMap) :
    List Envelope :=
  let folderName := String.mk folderPrefix.data.dropLast
  match latestFile files with
  | none => []
  | some latest =>
    let lines := (splitLines (getObject latest.Key).data).map String.mk
    let topoChannelData := fetchTopologyData folderName
    deliver PARSE_INFO_EVENTS (aggregate DEV_MODE PARSE_INFO_EVENTS folderName topoChannelData lines)

/-! ## Start-up: token acquisition with retries -/

/-- Variables of the start-up block: the token, the retry counter and the
number of calls of `getAuthToken` made so far. -/
structure BootState where
  AIOPS_AUTH_TOKEN : Option String
  retryCount : Nat
  calls : Nat
  deriving DecidableEq, Repr

/-- How the start-up block ends: `process.exit(code)`, or
`listFoldersAndParseLatestFiles` is started with the token in place. -/
inductive Outcome where
  | exit (code : Nat)
  | started (token : String)
  deriving DecidableEq, Repr

/-- The loop `while (retryCount < 3 && AIOPS_AUTH_TOKEN == null)`.  The
provider `getAuthToken` answers its `n`-th call (from 0) with
`getAuthToken n`; `none` is a call that yields no token.  The first
argument bounds the number of iterations; `none` means the bound was hit. -/
def retryLoop (getAuthToken : Nat → Option String) : Nat → BootState → Option BootState
  | 0, st =>
    if st.retryCount < 3 ∧ st.AIOPS_AUTH_TOKEN = none then none else some st
  | fuel + 1, st =>
    if st.retryCount < 3 ∧ st.AIOPS_AUTH_TOKEN = none then
      retryLoop getAuthToken fuel
        { AIOPS_AUTH_TOKEN := getAuthToken st.calls
          retryCount := st.retryCount + 1
          calls := st.calls + 1 }
    else some st

/-- The start-up block: first call, retry loop, then exit or start of the
processing.  The result pairs the number of provider calls with the outcome. -/
def bootstrap (getAuthToken : Nat → Option String) (fuel : Nat) : Option (Nat × Outcome) :=
  let st : BootState := { AIOPS_AUTH_TOKEN := getAuthToken 0, retryCount := 0, calls := 1 }
  match retryLoop getAuthToken fuel st with
  | none => none
  | some st =>
    match st.AIOPS_AUTH_TOKEN with
    | none => some (st.calls, .exit 1)
    | some token => some (st.calls, .started token)

/-! ## What a successful match says about the subject -/

theorem lazyStarAux_sound {α : Type} (p : Char → Bool) (k : List Char → Option α) :
    ∀ (s : List Char) (res : α), lazyStarAux p k s = some res →
      ∃ w s', s = w ++ s' ∧ (∀ c ∈ w, p c = true) ∧ k s' = some res := by
  intro s
  induction s with
  | nil =>
    intro res h
    exact ⟨[], [], rfl, by simp, h⟩
  | cons c t ih =>
    intro res h
    unfold lazyStarAux at h
    cases hk : k (c :: t) with
    | some r =>
      rw [hk] at h
      exact ⟨[], c :: t, rfl, by simp, by rw [hk]; exact h⟩
    | none =>
      rw [hk] at h
      by_cases hp : p c = true
      · simp only [hp, if_true] at h
        obtain ⟨w, s', hs, hw, hres⟩ := ih res h
        refine ⟨c :: w, s', by simp [hs], ?_, hres⟩
        intro x hx
        rcases List.mem_cons.mp hx with rfl | hx
        · exact hp
        · exact hw x hx
      · simp [hp] at h

theorem greedyStarAux_sound {α : Type} (p : Char → Bool) (k : List Char → Option α) :
    ∀ (s : List Char) (res : α), greedyStarAux p k s = some res →
      ∃ w s', s = w ++ s' ∧ (∀ c ∈ w, p c = true) ∧ k s' = some res := by
  intro s
  induction s with
  | nil =>
    intro res h
    exact ⟨[], [], rfl, by simp, h⟩
  | cons c t ih =>
    intro res h
    unfold greedyStarAux at h
    by_cases hp : p c = true
    · simp only [hp, if_true] at h
      cases hg : greedyStarAux p k t with
      | some r =>
        rw [hg] at h
        obtain ⟨w, s', hs, hw, hres⟩ := ih r hg
        refine ⟨c :: w, s', by simp [hs], ?_, ?_⟩
        · intro x hx
          rcases List.mem_cons.mp hx with rfl | hx
          · exact hp
          · exact hw x hx
        · rw [hres]; exact h
      | none =>
        rw [hg] at h
        exact ⟨[], c :: t, rfl, by simp, h⟩
    · simp only [hp] at h
      exact ⟨[], c :: t, rfl, by simp, h⟩

/-- Soundness of the backtracking matcher: a result comes from a split of
the subject into a text matched by the pattern and a rest accepted by the
continuation. -/
theorem matchHere_sound {α : Type} (r : Regex) :
    ∀ (s : List Char) (caps : Caps) (k : List Char → Caps → Option α) (res : α),
      matchHere r s caps k = some res →
      ∃ w s' caps', s = w ++ s' ∧ Matches r w caps caps' ∧ k s' caps' = some res := by
  induction r with
  | atom cs =>
    intro s caps k res h
    cases s with
    | nil => simp [matchHere] at h
    | cons c t =>
      by_cases hc : cs.test c = true
      · simp only [matchHere, hc, if_true] at h
        exact ⟨[c], t, caps, rfl, ⟨⟨c, rfl, hc⟩, rfl⟩, h⟩
      · simp [matchHere, hc] at h
  | lazyStar cs =>
    intro s caps k res h
    simp only [matchHere] at h
    obtain ⟨w, s', hs, hw, hres⟩ := lazyStarAux_sound _ _ s res h
    exact ⟨w, s', caps, hs, ⟨hw, rfl⟩, hres⟩
  | greedyPlus cs =>
    intro s caps k res h
    cases s with
    | nil => simp [matchHere] at h
    | cons c t =>
      by_cases hc : cs.test c = true
      · simp only [matchHere, hc, if_true] at h
        obtain ⟨w, s', hs, hw, hres⟩ := greedyStarAux_sound _ _ t res h
        refine ⟨c :: w, s', caps, by simp [hs], ⟨by simp, ?_, rfl⟩, hres⟩
        intro x hx
        rcases List.mem_cons.mp hx with rfl | hx
        · exact hc
        · exact hw x hx
      · simp [matchHere, hc] at h
  | group i r ih =>
    intro s caps k res h
    simp only [matchHere] at h
    obtain ⟨w, s', caps', hs, hm, hres⟩ := ih s caps _ res h
    refine ⟨w, s', caps'.set i w, hs, ⟨caps', hm, rfl⟩, ?_⟩
    have : List.take (s.length - s'.length) s = w := by
      subst hs
      simp
    rw [this] at hres
    exact hres
  | seq r₁ r₂ ih₁ ih₂ =>
    intro s caps k res h
    simp only [matchHere] at h
    obtain ⟨w₁, s₁, caps₁, hs₁, hm₁, h₁⟩ := ih₁ s caps _ res h
    obtain ⟨w₂, s₂, caps₂, hs₂, hm₂, h₂⟩ := ih₂ s₁ caps₁ k res h₁
    exact ⟨w₁ ++ w₂, s₂, caps₂, by simp [hs₁, hs₂], ⟨w₁, w₂, caps₁, rfl, hm₁, hm₂⟩, h₂⟩
  | eps =>
    intro s caps k res h
    simp only [matchHere] at h
    exact ⟨[], s, caps, rfl, ⟨rfl, rfl⟩, h⟩

theorem matchAt_sound (r : Regex) (s : List Char) (m : Caps) (h : matchAt r s = some m) :
    ∃ w post capsm, s = w ++ post ∧ Matches r w (initCaps r) capsm ∧ m = capsm.set 0 w := by
  unfold matchAt at h
  obtain ⟨w, s', caps', hs, hm, hres⟩ := matchHere_sound _ s (initCaps r) _ m h
  obtain ⟨capsm, hm', hc⟩ := hm
  simp only [Option.some.injEq] at hres
  exact ⟨w, s', capsm, hs, hm', by rw [← hres, hc]⟩

/-- A result of `execList` is a match of the pattern somewhere in the subject. -/
theorem execList_sound (r : Regex) :
    ∀ (s : List Char) (m : Caps), execList r s = some m →
      ∃ pre w post capsm, s = pre ++ w ++ post ∧ Matches r w (initCaps r) capsm ∧
        m = capsm.set 0 w := by
  intro s
  induction s with
  | nil =>
    intro m h
    unfold execList at h
    obtain ⟨w, post, capsm, hs, hm, hc⟩ := matchAt_sound r [] m h
    exact ⟨[], w, post, capsm, by simpa using hs, hm, hc⟩
  | cons c t ih =>
    intro m h
    unfold execList at h
    cases hm : matchAt r (c :: t) with
    | some m' =>
      rw [hm] at h
      simp only [Option.some.injEq] at h
      subst h
      obtain ⟨w, post, capsm, hs, hm, hc⟩ := matchAt_sound r (c :: t) m' hm
      exact ⟨[], w, post, capsm, by simpa using hs, hm, hc⟩
    | none =>
      rw [hm] at h
      obtain ⟨pre, w, post, capsm, hs, hm, hc⟩ := ih m h
      exact ⟨c :: pre, w, post, capsm, by simp [hs], hm, hc⟩

theorem matches_str (l w : List Char) (caps caps' : Caps) :
    Matches (Regex.str l) w caps caps' ↔ w = l ∧ caps' = caps := by
  induction l generalizing w caps caps' with
  | nil => simp [Regex.str, Matches]
  | cons c t ih =>
    simp only [Regex.str, Matches, CharSet.test, beq_iff_eq]
    constructor
    · rintro ⟨w₁, w₂, capsm, rfl, ⟨⟨x, rfl, rfl⟩, rfl⟩, h₂⟩
      obtain ⟨rfl, rfl⟩ := (ih _ _ _).mp h₂
      exact ⟨rfl, rfl⟩
    · rintro ⟨rfl, rfl⟩
      exact ⟨[c], t, _, rfl, ⟨⟨c, rfl, rfl⟩, rfl⟩, (ih _ _ _).mpr ⟨rfl, rfl⟩⟩

theorem includesList_iff (s n : List Char) : includesList s n = true ↔ n <:+: s := by
  induction s with
  | nil => simp [includesList, List.isEmpty_iff]
  | cons c t ih =>
    simp only [includesList, Bool.or_eq_true, ih, List.isPrefixOf_iff_prefix]
    exact List.infix_cons_iff.symm

theorem includes_iff (s n : String) : includes s n = true ↔ n.data <:+: s.data :=
  includesList_iff s.data n.data

/-- Shape of a line on which the completion pattern matches, with the
capture array of the match. -/
theorem infoPattern_sound (line : String) (m : List String)
    (h : jsMatch line infoPattern = some m) :
    ∃ pre ts id post,
      line.data = pre ++ ('[' :: ts ++ "] INFO Completed EPG check for channel ".data ++ id) ++ post ∧
      id ≠ [] ∧ (∀ c ∈ id, c.isDigit = true) ∧
      m = [String.mk ('[' :: ts ++ "] INFO Completed EPG check for channel ".data ++ id),
           String.mk ts, String.mk id] := by
  unfold jsMatch at h
  cases he : execList infoPattern line.data with
  | none => simp [he] at h
  | some caps =>
    rw [he] at h
    simp only [Option.map_some', Option.some.injEq] at h
    obtain ⟨pre, w, post, capsm, hs, hm, hc⟩ := execList_sound _ _ _ he
    have hg : initCaps infoPattern = [[], [], []] := rfl
    rw [hg] at hm
    unfold infoPattern at hm
    generalize "] INFO Completed EPG check for channel ".data = l₁ at hm hs ⊢
    simp only [Matches, matches_str, CharSet.test, beq_iff_eq] at hm
    obtain ⟨w₁, w₂, c₁, rfl, ⟨⟨x, rfl, rfl⟩, rfl⟩, w₃, w₄, c₂, rfl, ⟨c₃, ⟨-, rfl⟩, rfl⟩,
      w₅, w₆, c₄, rfl, ⟨rfl, rfl⟩, c₅, ⟨hne, hd, rfl⟩, rfl⟩ := hm
    refine ⟨pre, w₃, w₆, post, ?_, hne, hd, ?_⟩
    · rw [hs]; simp
    · rw [← h, hc]
      simp [List.set]

/-- Shape of a line on which the error pattern matches, with the capture
array of the match. -/
theorem errorPattern_sound (line : String) (m : List String)
    (h : jsMatch line errorPattern = some m) :
    ∃ pre ts id mid u post,
      line.data = pre ++ ('[' :: ts ++ "] ERROR No EPG Data for channel: ".data ++ id ++ mid ++
        "EPG Data URL: ".data ++ ("https://".data ++ u)) ++ post ∧
      id ≠ [] ∧ (∀ c ∈ id, c.isDigit = true) ∧ mid ≠ [] ∧ u ≠ [] ∧
      (∀ c ∈ u, isLineTerminator c = false) ∧
      m = [String.mk ('[' :: ts ++ "] ERROR No EPG Data for channel: ".data ++ id ++ mid ++
             "EPG Data URL: ".data ++ ("https://".data ++ u)),
           String.mk ts, String.mk id, String.mk ("https://".data ++ u)] := by
  unfold jsMatch at h
  cases he : execList errorPattern line.data with
  | none => simp [he] at h
  | some caps =>
    rw [he] at h
    simp only [Option.map_some', Option.some.injEq] at h
    obtain ⟨pre, w, post, capsm, hs, hm, hc⟩ := execList_sound _ _ _ he
    have hg : initCaps errorPattern = [[], [], [], []] := rfl
    rw [hg] at hm
    unfold errorPattern at hm
    generalize "] ERROR No EPG Data for channel: ".data = l₁ at hm hs ⊢
    generalize "EPG Data URL: ".data = l₂ at hm hs ⊢
    generalize "https://".data = l₃ at hm hs ⊢
    simp only [Matches, matches_str, CharSet.test, beq_iff_eq] at hm
    obtain ⟨w₁, w₂, c₁, rfl, ⟨⟨x, rfl, rfl⟩, rfl⟩, w₃, w₄, c₂, rfl, ⟨c₃, ⟨-, rfl⟩, rfl⟩,
      w₅, w₆, c₄, rfl, ⟨rfl, rfl⟩, w₇, w₈, c₅, rfl, ⟨c₆, ⟨hne, hd, rfl⟩, rfl⟩,
      w₉, w₁₀, c₇, rfl, ⟨hmid, -, rfl⟩, w₁₁, w₁₂, c₈, rfl, ⟨rfl, rfl⟩,
      c₉, ⟨w₁₃, w₁₄, c₁₀, rfl, ⟨rfl, rfl⟩, hu, hut, rfl⟩, rfl⟩ := hm
    refine ⟨pre, w₃, w₇, w₉, w₁₄, post, ?_, hne, hd, hmid, hu, ?_, ?_⟩
    · rw [hs]; simp
    · intro c hc
      simpa using hut c hc
    · rw [← h, hc]
      simp [List.set]

/-- A line on which the completion pattern matches contains `INFO`. -/
theorem includes_INFO_of_match (line : String) (m : List String)
    (h : jsMatch line infoPattern = some m) : includes line "INFO" = true := by
  obtain ⟨pre, ts, id, post, hs, -, -, -⟩ := infoPattern_sound line m h
  have hl : "] INFO Completed EPG check for channel ".data =
      "] ".data ++ "INFO".data ++ " Completed EPG check for channel ".data := rfl
  rw [includes_iff]
  refine ⟨pre ++ '[' :: ts ++ "] ".data, " Completed EPG check for channel ".data ++ id ++ post, ?_⟩
  rw [hs, hl]
  simp only [List.append_assoc, List.cons_append]

/-- A line on which the error pattern matches contains `ERROR`. -/
theorem includes_ERROR_of_match (line : String) (m : List String)
    (h : jsMatch line errorPattern = some m) : includes line "ERROR" = true := by
  obtain ⟨pre, ts, id, mid, u, post, hs, -⟩ := errorPattern_sound line m h
  have hl : "] ERROR No EPG Data for channel: ".data =
      "] ".data ++ "ERROR".data ++ " No EPG Data for channel: ".data := rfl
  rw [includes_iff]
  refine ⟨pre ++ '[' :: ts ++ "] ".data, " No EPG Data for channel: ".data ++ id ++ mid ++
    "EPG Data URL: ".data ++ ("https://".data ++ u) ++ post, ?_⟩
  rw [hs, hl]
  simp only [List.append_assoc, List.cons_append]

/-- Case analysis of `parseLogLine`: which branch runs and what it returns. -/
theorem parseLogLine_eq (b : Bool) (line folderName : String) (topo : Option TopologyMap) :
    parseLogLine b line folderName topo =
      if b = true ∧ includes line "INFO" = true then
        (jsMatch line infoPattern).map (fun m => infoEventOf m folderName topo)
      else if includes line "ERROR" = true then
        (jsMatch line errorPattern).map (fun m => errorEventOf m folderName topo)
      else none := by
  unfold parseLogLine
  by_cases h₁ : b = true ∧ includes line "INFO" = true
  · have h₁' : (b && includes line "INFO") = true := by simp [h₁.1, h₁.2]
    rw [if_pos h₁, if_pos h₁']
    cases jsMatch line infoPattern with
    | none => rfl
    | some m =>
      simp only [Option.map_some', infoEventOf]
      cases lookupName topo (m.getD 2 "") <;> rfl
  · have h₁' : ¬ (b && includes line "INFO") = true := by simpa using h₁
    rw [if_neg h₁, if_neg h₁']
    by_cases h₂ : includes line "ERROR" = true
    · rw [if_pos h₂, if_pos h₂]
      cases jsMatch line errorPattern with
      | none => rfl
      | some m =>
        simp only [Option.map_some', errorEventOf]
        cases lookupName topo (m.getD 2 "") <;> rfl
    · rw [if_neg h₂, if_neg h₂]

/-- Every event of `parseLogLine` has severity 0 or 4. -/
theorem parseLogLine_severity (b : Bool) (line folderName : String) (topo : Option TopologyMap)
    (e : Event) (h : parseLogLine b line folderName topo = some e) :
    e.severity = 0 ∨ e.severity = 4 := by
  rw [parseLogLine_eq] at h
  split at h
  · cases hm : jsMatch line infoPattern with
    | none => simp [hm] at h
    | some m =>
      simp only [hm, Option.map_some', Option.some.injEq] at h
      subst h
      exact Or.inl rfl
  · split at h
    · cases hm : jsMatch line errorPattern with
      | none => simp [hm] at h
      | some m =>
        simp only [hm, Option.map_some', Option.some.injEq] at h
        subst h
        exact Or.inr rfl
    · simp at h

/-! ## The claims about `parseLogLine` -/

/-- C6: a line that contains neither `INFO` nor `ERROR` yields no event,
for every tenant, topology map and setting of `PARSE_INFO_EVENTS`. -/
theorem C6_no_marker_no_event (b : Bool) (line folderName : String)
    (topo : Option TopologyMap)
    (hInfo : includes line "INFO" = false) (hErr : includes line "ERROR" = false) :
    parseLogLine b line folderName topo = none := by
  rw [parseLogLine_eq]
  simp [hInfo, hErr]

/-- Witness of C6 on the line `Starting EPG check`. -/
theorem C6_no_marker_no_event_witness :
    includes "Starting EPG check" "INFO" = false ∧
    includes "Starting EPG check" "ERROR" = false ∧
    parseLogLine true "Starting EPG check" "DE" none = none :=
  ⟨by decide, by decide,
   C6_no_marker_no_event true "Starting EPG check" "DE" none (by decide) (by decide)⟩

/-- C2 fails as stated: a well-formed error line whose URL contains `INFO`
yields no event when `PARSE_INFO_EVENTS` is true, since the error pattern
is only tried in the `else` branch. -/
theorem C2_counterexample :
    jsMatch "[t] ERROR No EPG Data for channel: 1. EPG Data URL: https://cdn/INFO" errorPattern =
      some ["[t] ERROR No EPG Data for channel: 1. EPG Data URL: https://cdn/INFO",
            "t", "1", "https://cdn/INFO"] ∧
    parseLogLine true "[t] ERROR No EPG Data for channel: 1. EPG Data URL: https://cdn/INFO"
      "DE" none = none := by
  constructor <;> decide

/-- C2 (amended): for a line on which the error pattern matches with capture
array `m`, and with `PARSE_INFO_EVENTS` false or no `INFO` in the line,
`parseLogLine` returns an event of severity 4 whose `epgUrl` is the third
capture; that capture is not empty, starts with `https://` and stands in
the line right after `EPG Data URL: `. -/
theorem C2_error_line_event (b : Bool) (line folderName : String)
    (topo : Option TopologyMap) (m : List String)
    (hm : jsMatch line errorPattern = some m)
    (hgate : b = false ∨ includes line "INFO" = false) :
    ∃ e, parseLogLine b line folderName topo = some e ∧ e.severity = 4 ∧
      e.epgUrl = some (m.getD 3 "") ∧ m.getD 3 "" ≠ "" ∧
      "https://".data <+: (m.getD 3 "").data ∧
      ∃ pre post, line.data = pre ++ "EPG Data URL: ".data ++ (m.getD 3 "").data ++ post := by
  have hE := includes_ERROR_of_match line m hm
  have h₁ : ¬ (b = true ∧ includes line "INFO" = true) := by
    rcases hgate with h | h <;> simp [h]
  refine ⟨errorEventOf m folderName topo, ?_, rfl, rfl, ?_⟩
  · rw [parseLogLine_eq, if_neg h₁, if_pos hE, hm]
    rfl
  · obtain ⟨pre, ts, id, mid, u, post, hs, -, -, -, hu, -, rfl⟩ := errorPattern_sound line m hm
    simp only [List.getD_cons_succ, List.getD_cons_zero]
    refine ⟨?_, ⟨u, rfl⟩, ?_⟩
    · intro h
      have := congrArg String.data h
      simp at this
    · refine ⟨pre ++ ('[' :: ts ++ "] ERROR No EPG Data for channel: ".data ++ id ++ mid), post, ?_⟩
      rw [hs]
      simp only [List.append_assoc, List.cons_append]

/-- Witness of C2 (amended) on a line of the documented form, with
`PARSE_INFO_EVENTS` true. -/
theorem C2_error_line_event_witness :
    ∃ e, parseLogLine true "[t] ERROR No EPG Data for channel: 1. EPG Data URL: https://cdn/1"
        "DE" none = some e ∧ e.severity = 4 ∧
      e.epgUrl = some ((["[t] ERROR No EPG Data for channel: 1. EPG Data URL: https://cdn/1",
            "t", "1", "https://cdn/1"] : List String).getD 3 "") ∧
      ([("[t] ERROR No EPG Data for channel: 1. EPG Data URL: https://cdn/1" : String),
            "t", "1", "https://cdn/1"] : List String).getD 3 "" ≠ "" ∧
      "https://".data <+: ((["[t] ERROR No EPG Data for channel: 1. EPG Data URL: https://cdn/1",
            "t", "1", "https://cdn/1"] : List String).getD 3 "").data ∧
      ∃ pre post,
        ("[t] ERROR No EPG Data for channel: 1. EPG Data URL: https://cdn/1" : String).data =
          pre ++ "EPG Data URL: ".data ++
            ((["[t] ERROR No EPG Data for channel: 1. EPG Data URL: https://cdn/1",
            "t", "1", "https://cdn/1"] : List String).getD 3 "").data ++ post :=
  C2_error_line_event true "[t] ERROR No EPG Data for channel: 1. EPG Data URL: https://cdn/1"
    "DE" none _ (by decide) (Or.inr (by decide))

/-- C3 fails as stated: with `PARSE_INFO_EVENTS` false, a line on which the
completion pattern matches still yields an event when the error pattern
matches it too. -/
theorem C3_counterexample :
    jsMatch ("[a] INFO Completed EPG check for channel 7 " ++
        "[b] ERROR No EPG Data for channel: 2. EPG Data URL: https://u") infoPattern =
      some ["[a] INFO Completed EPG check for channel 7", "a", "7"] ∧
    parseLogLine false ("[a] INFO Completed EPG check for channel 7 " ++
        "[b] ERROR No EPG Data for channel: 2. EPG Data URL: https://u") "DE" none =
      some { raised := "a] INFO Completed EPG check for channel 7 [b"
             ressourceIdentifier := "DE_2"
             message := "No EPG Data for channel: 2"
             severity := 4
             agent := "epg-log-parser"
             epgUrl := some "https://u"
             opco := "DE" } := by
  constructor <;> decide

/-- C3 (amended): for a line on which the completion pattern matches: with
`PARSE_INFO_EVENTS` true `parseLogLine` returns an event of severity 0; with
`PARSE_INFO_EVENTS` false it returns no event of severity 0, and no event
at all unless the error pattern matches the line as well, in which case the
event is the error event of severity 4. -/
theorem C3_completion_line (line folderName : String) (topo : Option TopologyMap)
    (m : List String) (hm : jsMatch line infoPattern = some m) :
    (∃ e, parseLogLine true line folderName topo = some e ∧ e.severity = 0) ∧
    (jsMatch line errorPattern = none → parseLogLine false line folderName topo = none) ∧
    (∀ e, parseLogLine false line folderName topo = some e →
      e.severity = 4 ∧ (jsMatch line errorPattern).isSome = true) ∧
    (∀ m', jsMatch line errorPattern = some m' →
      ∃ e, parseLogLine false line folderName topo = some e ∧ e.severity = 4) := by
  have hI := includes_INFO_of_match line m hm
  refine ⟨⟨infoEventOf m folderName topo, ?_, rfl⟩, ?_, ?_, ?_⟩
  · rw [parseLogLine_eq, if_pos ⟨rfl, hI⟩, hm]
    rfl
  · intro hnone
    rw [parseLogLine_eq]
    simp [hnone]
  · intro e he
    rw [parseLogLine_eq] at he
    simp only [Bool.false_eq_true, false_and, if_false] at he
    split at he
    · cases hme : jsMatch line errorPattern with
      | none => simp [hme] at he
      | some m' =>
        simp only [hme, Option.map_some', Option.some.injEq] at he
        subst he
        exact ⟨rfl, rfl⟩
    · simp at he
  · intro m' hm'
    refine ⟨errorEventOf m' folderName topo, ?_, rfl⟩
    rw [parseLogLine_eq]
    simp [includes_ERROR_of_match line m' hm', hm']

/-- Witness of C3 (amended) on the completion line of the source comment. -/
theorem C3_completion_line_witness :
    (∃ e, parseLogLine true "[2024-09-05 09:46:25,358] INFO Completed EPG check for channel 5507"
        "DE" none = some e ∧ e.severity = 0) ∧
    (jsMatch "[2024-09-05 09:46:25,358] INFO Completed EPG check for channel 5507"
        errorPattern = none →
      parseLogLine false "[2024-09-05 09:46:25,358] INFO Completed EPG check for channel 5507"
        "DE" none = none) ∧
    (∀ e, parseLogLine false "[2024-09-05 09:46:25,358] INFO Completed EPG check for channel 5507"
        "DE" none = some e →
      e.severity = 4 ∧
      (jsMatch "[2024-09-05 09:46:25,358] INFO Completed EPG check for channel 5507"
        errorPattern).isSome = true) ∧
    (∀ m', jsMatch "[2024-09-05 09:46:25,358] INFO Completed EPG check for channel 5507"
        errorPattern = some m' →
      ∃ e, parseLogLine false "[2024-09-05 09:46:25,358] INFO Completed EPG check for channel 5507"
        "DE" none = some e ∧ e.severity = 4) :=
  C3_completion_line "[2024-09-05 09:46:25,358] INFO Completed EPG check for channel 5507"
    "DE" none
    ["[2024-09-05 09:46:25,358] INFO Completed EPG check for channel 5507",
     "2024-09-05 09:46:25,358", "5507"] (by decide)

/-- Occurrences of a text that starts with a character of a class cannot
begin inside a prefix free of that class. -/
theorem infix_append_iff_of_class (p : Char → Bool) (pre s n : List Char) (hn : n ≠ [])
    (hp : ∀ c ∈ n, p c = true) (hpre : ∀ c ∈ pre, p c = false) :
    n <:+: pre ++ s ↔ n <:+: s := by
  induction pre with
  | nil => simp
  | cons c pre' ih =>
    have ih' := ih (fun x hx => hpre x (List.mem_cons_of_mem _ hx))
    rw [List.cons_append, List.infix_cons_iff, ih']
    constructor
    · rintro (h | h)
      · exfalso
        cases n with
        | nil => exact hn rfl
        | cons x n' =>
          obtain ⟨r, hr⟩ := h
          simp only [List.cons_append, List.cons.injEq] at hr
          have h₁ := hp x (List.mem_cons_self _ _)
          have h₂ := hpre c (List.mem_cons_self _ _)
          rw [hr.1, h₂] at h₁
          exact Bool.noConfusion h₁
      · exact h
    · exact Or.inr

/-- The raw id occurs in a message text followed by `name` exactly when it
occurs in `name`: neither fixed text holds a digit. -/
theorem includes_message_id (msg name id : String) (hmsg : ∀ c ∈ msg.data, c.isDigit = false)
    (hne : id.data ≠ []) (hd : ∀ c ∈ id.data, c.isDigit = true) :
    includes (msg ++ name) id = includes name id := by
  rw [Bool.eq_iff_iff, includes_iff, includes_iff, String.data_append]
  exact infix_append_iff_of_class Char.isDigit msg.data name.data id.data hne hd hmsg

theorem includes_append_right (msg name : String) : includes (msg ++ name) name = true := by
  rw [includes_iff, String.data_append]
  exact ⟨msg.data, [], by simp⟩

theorem completedText_noDigit :
    ∀ c ∈ "Completed EPG check for channel ".data, c.isDigit = false := by decide

theorem noDataText_noDigit :
    ∀ c ∈ "No EPG Data for channel: ".data, c.isDigit = false := by decide

theorem lookupName_some (t : TopologyMap) (id name : String) (h : t id = some name)
    (hne : name ≠ "") : lookupName (some t) id = some name := by
  simp [lookupName, h, hne]

theorem lookupName_none (topo : Option TopologyMap) (id : String)
    (h : topo = none ∨ ∃ t, topo = some t ∧ (t id = none ∨ t id = some "")) :
    lookupName topo id = none := by
  rcases h with rfl | ⟨t, rfl, h | h⟩ <;> simp [lookupName, *]

/-- C4 fails as stated, twice: an entry whose name is the empty string is
treated as absent (identifier `DE_7`, not `DE_7_`), and a name that contains
the digits of the id leaves them in the message. -/
theorem C4_counterexample :
    capturedChannelId false "[t] ERROR No EPG Data for channel: 7. EPG Data URL: https://u" =
      some "7" ∧
    (parseLogLine false "[t] ERROR No EPG Data for channel: 7. EPG Data URL: https://u" "DE"
      (some (fun k => if k = "7" then some "" else none))).map Event.ressourceIdentifier =
      some "DE_7" ∧
    (parseLogLine false "[t] ERROR No EPG Data for channel: 7. EPG Data URL: https://u" "DE"
      (some (fun k => if k = "7" then some "Kanal 7" else none))).map
        (fun e => (e.message, includes e.message "7")) =
      some ("No EPG Data for channel: Kanal 7", true) := by
  refine ⟨?_, ?_, ?_⟩ <;> decide

/-- C4 (amended): for a line with captured channel id `id`, `parseLogLine`
returns an event such that: if the topology map has an entry `name` for `id`
that is not the empty string, the identifier is
`tenant + '_' + id + '_' + name`, the message is the fixed text followed by
`name` (so it contains `name`, and contains the raw id only where `name`
does); if the map is `null`, has no entry for `id` or has the empty string
there, the identifier is `tenant + '_' + id` and the message is the fixed
text followed by the raw id. -/
theorem C4_topology_substitution (b : Bool) (line folderName id : String)
    (topo : Option TopologyMap) (hid : capturedChannelId b line = some id) :
    ∃ e, parseLogLine b line folderName topo = some e ∧
      (∀ t name, topo = some t → t id = some name → name ≠ "" →
        e.ressourceIdentifier = folderName ++ "_" ++ id ++ "_" ++ name ∧
        (e.message = "Completed EPG check for channel " ++ name ∨
          e.message = "No EPG Data for channel: " ++ name) ∧
        includes e.message name = true ∧
        includes e.message id = includes name id) ∧
      ((topo = none ∨ ∃ t, topo = some t ∧ (t id = none ∨ t id = some "")) →
        e.ressourceIdentifier = folderName ++ "_" ++ id ∧
        (e.message = "Completed EPG check for channel " ++ id ∨
          e.message = "No EPG Data for channel: " ++ id) ∧
        includes e.message id = true) := by
  unfold capturedChannelId at hid
  rw [parseLogLine_eq]
  by_cases h₁ : b = true ∧ includes line "INFO" = true
  · have h₁' : (b && includes line "INFO") = true := by simp [h₁.1, h₁.2]
    rw [if_pos h₁'] at hid
    rw [if_pos h₁]
    cases hm : jsMatch line infoPattern with
    | none => simp [hm] at hid
    | some m =>
      simp only [hm, Option.map_some', Option.some.injEq] at hid
      obtain ⟨pre, ts, idl, post, -, hne, hd, rfl⟩ := infoPattern_sound line m hm
      simp only [List.getD_cons_succ, List.getD_cons_zero] at hid
      subst hid
      refine ⟨_, rfl, ?_, ?_⟩
      · intro t name ht hn hnn
        subst ht
        simp only [infoEventOf, List.getD_cons_succ, List.getD_cons_zero,
          lookupName_some t _ name hn hnn]
        exact ⟨trivial, Or.inl trivial, includes_append_right _ _,
          includes_message_id _ _ _ completedText_noDigit hne hd⟩
      · intro habs
        simp only [infoEventOf, List.getD_cons_succ, List.getD_cons_zero,
          lookupName_none topo _ habs]
        exact ⟨trivial, Or.inl trivial, includes_append_right _ _⟩
  · have h₁' : ¬ (b && includes line "INFO") = true := by simpa using h₁
    rw [if_neg h₁'] at hid
    rw [if_neg h₁]
    by_cases h₂ : includes line "ERROR" = true
    · rw [if_pos h₂] at hid
      rw [if_pos h₂]
      cases hm : jsMatch line errorPattern with
      | none => simp [hm] at hid
      | some m =>
        simp only [hm, Option.map_some', Option.some.injEq] at hid
        obtain ⟨pre, ts, idl, mid, u, post, -, hne, hd, -, -, -, rfl⟩ :=
          errorPattern_sound line m hm
        simp only [List.getD_cons_succ, List.getD_cons_zero] at hid
        subst hid
        refine ⟨_, rfl, ?_, ?_⟩
        · intro t name ht hn hnn
          subst ht
          simp only [errorEventOf, List.getD_cons_succ, List.getD_cons_zero,
            lookupName_some t _ name hn hnn]
          exact ⟨trivial, Or.inr trivial, includes_append_right _ _,
            includes_message_id _ _ _ noDataText_noDigit hne hd⟩
        · intro habs
          simp only [errorEventOf, List.getD_cons_succ, List.getD_cons_zero,
            lookupName_none topo _ habs]
          exact ⟨trivial, Or.inr trivial, includes_append_right _ _⟩
    · rw [if_neg h₂] at hid
      simp at hid

/-- Witness of C4 (amended): id `7` with the entry `Kanal` in the map. -/
theorem C4_topology_substitution_witness :
    capturedChannelId false "[t] ERROR No EPG Data for channel: 7. EPG Data URL: https://u" =
      some "7" ∧
    ∃ e, parseLogLine false "[t] ERROR No EPG Data for channel: 7. EPG Data URL: https://u" "DE"
        (some (fun k => if k = "7" then some "Kanal" else none)) = some e ∧
      e.ressourceIdentifier = "DE" ++ "_" ++ "7" ++ "_" ++ "Kanal" ∧
      includes e.message "Kanal" = true ∧
      includes e.message "7" = includes "Kanal" "7" := by
  refine ⟨by decide, ?_⟩
  obtain ⟨e, he, h₁, -⟩ := C4_topology_substitution false
    "[t] ERROR No EPG Data for channel: 7. EPG Data URL: https://u" "DE" "7"
    (some (fun k => if k = "7" then some "Kanal" else none)) (by decide)
  have h := h₁ _ "Kanal" rfl (by decide) (by decide)
  exact ⟨e, he, h.1, h.2.2.1, h.2.2.2⟩

set_option maxRecDepth 100000 in
/-- C9: the documented error line, tenant `DE` and topology
`{"5457": "ChannelX"}` give, under either setting of `PARSE_INFO_EVENTS`,
the event with raised `2024-09-05 09:46:57,039`, identifier
`DE_5457_ChannelX`, message `No EPG Data for channel: ChannelX`, severity 4,
agent `epg-log-parser`, the URL of the line as `epgUrl` and opco `DE`. -/
theorem C9_end_to_end_error_line (b : Bool) :
    parseLogLine b
      ("[2024-09-05 09:46:57,039] ERROR No EPG Data for channel: 5457. Date: 2024/09/03. " ++
        "Timeslot: 12-18. EPG Data URL: https://cdn.example.com/epg/5457/2024/09/03/12-18")
      "DE" (some (fun k => if k = "5457" then some "ChannelX" else none)) =
    some { raised := "2024-09-05 09:46:57,039"
           ressourceIdentifier := "DE_5457_ChannelX"
           message := "No EPG Data for channel: ChannelX"
           severity := 4
           agent := "epg-log-parser"
           epgUrl := some "https://cdn.example.com/epg/5457/2024/09/03/12-18"
           opco := "DE" } := by
  cases b <;> decide

/-! ## Latest-file selection -/

/-- Result of the `reduce` callback folded over a list: a file of the list
with the largest timestamp, and every file after it is strictly older. -/
theorem foldl_laterOf_spec (fs : List S3Object) (f : S3Object) :
    (∀ g ∈ f :: fs, g.LastModified ≤ (fs.foldl laterOf f).LastModified) ∧
    ∃ pre post, f :: fs = pre ++ fs.foldl laterOf f :: post ∧
      ∀ g ∈ post, g.LastModified < (fs.foldl laterOf f).LastModified := by
  induction fs using List.reverseRecOn with
  | nil =>
    refine ⟨by simp, [], [], rfl, by simp⟩
  | append_singleton xs x ih =>
    obtain ⟨hmax, pre, post, hsplit, hpost⟩ := ih
    rw [List.foldl_append, List.foldl_cons, List.foldl_nil]
    by_cases hgt : (xs.foldl laterOf f).LastModified > x.LastModified
    · have hl : laterOf (xs.foldl laterOf f) x = xs.foldl laterOf f := by
        simp [laterOf, hgt]
      rw [hl]
      refine ⟨?_, pre, post ++ [x], ?_, ?_⟩
      · intro g hg
        rw [← List.cons_append, List.mem_append] at hg
        rcases hg with hg | hg
        · exact hmax g hg
        · rw [List.mem_singleton.mp hg]
          exact le_of_lt hgt
      · rw [← List.cons_append, hsplit]
        simp
      · intro g hg
        rcases List.mem_append.mp hg with hg | hg
        · exact hpost g hg
        · rw [List.mem_singleton.mp hg]
          exact hgt
    · have hl : laterOf (xs.foldl laterOf f) x = x := by
        simp [laterOf, hgt]
      rw [hl]
      refine ⟨?_, f :: xs, [], by simp, by simp⟩
      intro g hg
      rw [← List.cons_append, List.mem_append] at hg
      rcases hg with hg | hg
      · exact le_trans (hmax g hg) (not_lt.mp hgt)
      · rw [List.mem_singleton.mp hg]

/-- C7 fails as stated: of two files with the same timestamp the second is
selected, and it is not the first file of the list with that timestamp. -/
theorem C7_counterexample :
    latestFile [⟨"a.log", 5⟩, ⟨"b.log", 5⟩] = some ⟨"b.log", 5⟩ ∧
    ¬ ∃ pre post, ([⟨"a.log", 5⟩, ⟨"b.log", 5⟩] : List S3Object) = pre ++ ⟨"b.log", 5⟩ :: post ∧
      ∀ g ∈ pre, g.LastModified < (5 : Int) := by
  refine ⟨by decide, ?_⟩
  rintro ⟨pre, post, hsplit, hpre⟩
  cases pre with
  | nil =>
    simp only [List.nil_append, List.cons.injEq, S3Object.mk.injEq] at hsplit
    exact absurd hsplit.1.1 (by decide)
  | cons p pre' =>
    simp only [List.cons_append, List.cons.injEq] at hsplit
    have := hpre p (List.mem_cons_self _ _)
    rw [← hsplit.1] at this
    exact absurd this (by decide)

/-- C7 (amended): for a non-empty list of files the selected file has the
maximum `LastModified` of the list, and when several files share that
maximum the one selected is the last of them in list order. -/
theorem C7_latest_file (files : List S3Object) (hne : files ≠ []) :
    ∃ r, latestFile files = some r ∧
      (∀ g ∈ files, g.LastModified ≤ r.LastModified) ∧
      ∃ pre post, files = pre ++ r :: post ∧ ∀ g ∈ post, g.LastModified < r.LastModified := by
  cases files with
  | nil => exact absurd rfl hne
  | cons f fs =>
    obtain ⟨hmax, hsplit⟩ := foldl_laterOf_spec fs f
    exact ⟨fs.foldl laterOf f, rfl, hmax, hsplit⟩

/-- Witness of C7 (amended) on three files, two of them with the maximum. -/
theorem C7_latest_file_witness :
    ∃ r, latestFile [⟨"a.log", 5⟩, ⟨"b.log", 5⟩, ⟨"c.log", 3⟩] = some r ∧
      (∀ g ∈ ([⟨"a.log", 5⟩, ⟨"b.log", 5⟩, ⟨"c.log", 3⟩] : List S3Object),
        g.LastModified ≤ r.LastModified) ∧
      ∃ pre post, ([⟨"a.log", 5⟩, ⟨"b.log", 5⟩, ⟨"c.log", 3⟩] : List S3Object) =
        pre ++ r :: post ∧ ∀ g ∈ post, g.LastModified < r.LastModified :=
  C7_latest_file [⟨"a.log", 5⟩, ⟨"b.log", 5⟩, ⟨"c.log", 3⟩] (by decide)

/-! ## Aggregation and delivery -/

/-- One step of the production loop (`DEV_MODE` false): only an event of
severity 4 changes the arrays, and it goes to `criticalEventsToSend`. -/
theorem processLine_production (b : Bool) (folderName : String) (topo : Option TopologyMap)
    (st : Buckets) (line : String) :
    processLine false b folderName topo st line =
      { criticalEventsToSend := st.criticalEventsToSend ++
          ((parseLogLine b line folderName topo).toList.filter (fun e => decide (e.severity = 4)))
        clearEventsToSend := st.clearEventsToSend } := by
  unfold processLine
  simp only [Bool.false_eq_true, if_false]
  cases hp : parseLogLine b line folderName topo with
  | none => simp
  | some ev =>
    rcases parseLogLine_severity b line folderName topo ev hp with h | h
    · simp [h]
    · simp [h]

theorem foldl_processLine_production (b : Bool) (folderName : String)
    (topo : Option TopologyMap) (lines : List String) :
    ∀ st : Buckets, lines.foldl (processLine false b folderName topo) st =
      { criticalEventsToSend := st.criticalEventsToSend ++
          ((lines.filterMap (fun l => parseLogLine b l folderName topo)).filter
            (fun e => decide (e.severity = 4)))
        clearEventsToSend := st.clearEventsToSend } := by
  induction lines with
  | nil => intro st; simp
  | cons l ls ih =>
    intro st
    rw [List.foldl_cons, ih, processLine_production]
    cases hp : parseLogLine b l folderName topo with
    | none => simp [List.filterMap_cons, hp]
    | some ev =>
      simp only [List.filterMap_cons, hp, Option.toList_some, List.append_assoc]
      by_cases h4 : ev.severity = 4 <;> simp [List.filter_cons, h4]

/-- The payloads of the delivery steps, in order. -/
theorem deliver_eq (b : Bool) (bk : Buckets) :
    deliver b bk =
      (if b = true ∧ bk.clearEventsToSend ≠ [] then [⟨some bk.clearEventsToSend⟩] else []) ++
      (if bk.criticalEventsToSend ≠ [] then [⟨some bk.criticalEventsToSend⟩] else []) := by
  unfold deliver sendEventsToEndpoint
  by_cases hc : bk.clearEventsToSend = [] <;> by_cases hk : bk.criticalEventsToSend = [] <;>
    cases b <;> simp [hc, hk, List.length_pos]

/-- In the production path at most one payload is delivered for the lines
of a file. -/
theorem deliver_production_length (b : Bool) (folderName : String)
    (topo : Option TopologyMap) (lines : List String) :
    (deliver b (aggregate DEV_MODE b folderName topo lines)).length ≤ 1 := by
  unfold aggregate DEV_MODE
  rw [foldl_processLine_production, deliver_eq]
  simp only [List.nil_append, ne_eq, not_true_eq_false, and_false, if_false]
  split <;> simp

/-- C1, evaluated at the failing input: the completion line yields an event
of severity 0, the production loop leaves both arrays empty, and the
`DEV_MODE` branch of the same loop puts the event into `clearEventsToSend`. -/
theorem C1_severity0_event_dropped :
    parseLogLine true "[2024-09-05 09:46:25,358] INFO Completed EPG check for channel 5507"
      "DE" none =
      some { raised := "2024-09-05 09:46:25,358"
             ressourceIdentifier := "DE_5507"
             message := "Completed EPG check for channel 5507"
             severity := 0
             agent := "epg-log-parser"
             epgUrl := none
             opco := "DE" } ∧
    aggregate DEV_MODE true "DE" none
      ["[2024-09-05 09:46:25,358] INFO Completed EPG check for channel 5507"] =
      { criticalEventsToSend := [], clearEventsToSend := [] } ∧
    aggregate true true "DE" none
      ["[2024-09-05 09:46:25,358] INFO Completed EPG check for channel 5507"] =
      { criticalEventsToSend := []
        clearEventsToSend :=
          [{ raised := "2024-09-05 09:46:25,358"
             ressourceIdentifier := "DE_5507"
             message := "Completed EPG check for channel 5507"
             severity := 0
             agent := "epg-log-parser"
             epgUrl := none
             opco := "DE" }] } := by
  refine ⟨?_, ?_, ?_⟩ <;> decide

/-- C10: in the production path, after the per-line loop
`criticalEventsToSend` is the sequence, in line order, of the severity-4
events that `parseLogLine` returns for the lines, `clearEventsToSend` is
empty, and the delivery consists of the critical batch alone when it is not
empty and of nothing otherwise: at most one payload, also for a whole
folder iteration. -/
theorem C10_production_aggregation (b : Bool) (folderName : String)
    (topo : Option TopologyMap) (lines : List String) :
    aggregate DEV_MODE b folderName topo lines =
      { criticalEventsToSend :=
          (lines.filterMap (fun l => parseLogLine b l folderName topo)).filter
            (fun e => decide (e.severity = 4))
        clearEventsToSend := [] } ∧
    deliver b (aggregate DEV_MODE b folderName topo lines) =
      (if (aggregate DEV_MODE b folderName topo lines).criticalEventsToSend ≠ [] then
        [⟨some (aggregate DEV_MODE b folderName topo lines).criticalEventsToSend⟩] else []) ∧
    (deliver b (aggregate DEV_MODE b folderName topo lines)).length ≤ 1 ∧
    (∀ (folderPrefix : String) (files : List S3Object) (getObject : String → String)
        (fetchTopologyData : String → Option TopologyMap),
      (processFolder b folderPrefix files getObject fetchTopologyData).length ≤ 1) := by
  have hagg : aggregate DEV_MODE b folderName topo lines =
      { criticalEventsToSend :=
          (lines.filterMap (fun l => parseLogLine b l folderName topo)).filter
            (fun e => decide (e.severity = 4))
        clearEventsToSend := [] } := by
    unfold aggregate DEV_MODE
    rw [foldl_processLine_production]
    simp
  have hdel : deliver b (aggregate DEV_MODE b folderName topo lines) =
      (if (aggregate DEV_MODE b folderName topo lines).criticalEventsToSend ≠ [] then
        [⟨some (aggregate DEV_MODE b folderName topo lines).criticalEventsToSend⟩] else []) := by
    rw [deliver_eq, hagg]
    simp
  refine ⟨hagg, hdel, deliver_production_length b folderName topo lines, ?_⟩
  intro folderPrefix files getObject fetchTopologyData
  unfold processFolder
  cases latestFile files with
  | none => simp
  | some latest => exact deliver_production_length b _ _ _

/-- C8: the payloads given to `sendEventsToEndpoint` for a pair of batches
are the envelope of the clear batch exactly when `PARSE_INFO_EVENTS` is true
and that batch is not empty, followed by the envelope of the critical batch
exactly when that batch is not empty; no payload is an empty batch or an
envelope without `events`, and there are at most two payloads. -/
theorem C8_delivery_order (b : Bool) (clear crit : List Event) :
    deliver b { criticalEventsToSend := crit, clearEventsToSend := clear } =
      (if b = true ∧ clear ≠ [] then [⟨some clear⟩] else []) ++
      (if crit ≠ [] then [⟨some crit⟩] else []) ∧
    (∀ p ∈ deliver b { criticalEventsToSend := crit, clearEventsToSend := clear },
      p.events ≠ none ∧ p.events ≠ some []) ∧
    (deliver b { criticalEventsToSend := crit, clearEventsToSend := clear }).length ≤ 2 := by
  have h := deliver_eq b { criticalEventsToSend := crit, clearEventsToSend := clear }
  simp only at h
  refine ⟨h, ?_, ?_⟩
  · intro p hp
    rw [h, List.mem_append] at hp
    rcases hp with hp | hp
    · split at hp
      · rename_i hc
        rw [List.mem_singleton.mp hp]
        exact ⟨by simp, by simpa using hc.2⟩
      · simp at hp
    · split at hp
      · rename_i hc
        rw [List.mem_singleton.mp hp]
        exact ⟨by simp, by simpa using hc⟩
      · simp at hp
  · rw [h]
    split <;> split <;> simp

/-! ## Start-up -/

/-- The retry loop stops at once when its condition is false. -/
theorem retryLoop_done (g : Nat → Option String) (fuel : Nat) (st : BootState)
    (h : ¬ (st.retryCount < 3 ∧ st.AIOPS_AUTH_TOKEN = none)) :
    retryLoop g fuel st = some st := by
  cases fuel <;> simp [retryLoop, h]

/-- C5: with a bound of at least 3 iterations the start-up block returns;
if the first four calls of the provider yield no token, the provider is
called 4 times and the block ends in `process.exit(1)` without starting the
processing; if the first token comes on call `k`, `1 ≤ k ≤ 4`, the provider
is called `k` times and the processing starts with that token. -/
theorem C5_auth_retry_bound (getAuthToken : Nat → Option String) (fuel : Nat)
    (hfuel : 3 ≤ fuel) :
    ((∀ n, n < 4 → getAuthToken n = none) →
      bootstrap getAuthToken fuel = some (4, Outcome.exit 1)) ∧
    (∀ k token, 1 ≤ k → k ≤ 4 → (∀ n, n < k - 1 → getAuthToken n = none) →
      getAuthToken (k - 1) = some token →
      bootstrap getAuthToken fuel = some (k, Outcome.started token)) := by
  obtain ⟨f, rfl⟩ : ∃ f, fuel = f + 3 := ⟨fuel - 3, by omega⟩
  constructor
  · intro hnone
    have h0 := hnone 0 (by decide)
    have h1 := hnone 1 (by decide)
    have h2 := hnone 2 (by decide)
    have h3 := hnone 3 (by decide)
    simp [bootstrap, retryLoop, retryLoop_done, h0, h1, h2, h3]
  · intro k token hk1 hk4 hnone hsome
    have hk : k = 1 ∨ k = 2 ∨ k = 3 ∨ k = 4 := by omega
    rcases hk with rfl | rfl | rfl | rfl
    · simp only [Nat.sub_self] at hsome
      simp [bootstrap, retryLoop, retryLoop_done, hsome]
    · have h0 := hnone 0 (by decide)
      simp only [Nat.add_one_sub_one] at hsome
      simp [bootstrap, retryLoop, retryLoop_done, h0, hsome]
    · have h0 := hnone 0 (by decide)
      have h1 := hnone 1 (by decide)
      simp only [Nat.add_one_sub_one] at hsome
      simp [bootstrap, retryLoop, retryLoop_done, h0, h1, hsome]
    · have h0 := hnone 0 (by decide)
      have h1 := hnone 1 (by decide)
      have h2 := hnone 2 (by decide)
      simp only [Nat.add_one_sub_one] at hsome
      simp [bootstrap, retryLoop, retryLoop_done, h0, h1, h2, hsome]

/-- Witness of C5: a provider that never yields a token, and one whose
third call yields the token `tok`, both with the bound 3. -/
theorem C5_auth_retry_bound_witness :
    bootstrap (fun _ => none) 3 = some (4, Outcome.exit 1) ∧
    bootstrap (fun n => if n = 2 then some "tok" else none) 3 =
      some (3, Outcome.started "tok") :=
  ⟨(C5_auth_retry_bound (fun _ => none) 3 (by decide)).1 (fun _ _ => rfl),
   (C5_auth_retry_bound (fun n => if n = 2 then some "tok" else none) 3 (by decide)).2
     3 "tok" (by decide) (by decide) (by decide) (by decide)⟩

end EpgLog
